import Mathlib

/-!
Shallow embedding of the openclaw gateway protocol core:
`src/gateway/server.ts`, `src/gateway/client.ts`, `src/infra/system-presence.ts`.

JS `Map` objects are modelled as insertion-ordered association lists
(`List (String × β)`); `Map.set` replaces in place, `Map.delete` removes the
entry, iteration follows insertion order, exactly as ECMAScript specifies.
JS numbers used as millisecond timestamps are modelled as `Int` (so that
`now - ts > TTL` comparisons keep their JS meaning); counters that only
increment (`seq`, version counters) are `Nat`.  `Array.prototype.sort` with
comparator `(a, b) => a.ts - b.ts` is a stable ascending sort by `ts`, which
is exactly `List.insertionSort` with the corresponding `≤` relation.
External collaborator ports (delivery, agent runtime, health, status, the
system-event queue) are modelled as oracle inputs plus invocation effects;
their internals are out of scope for the gateway core.
-/

/-- JS-Map `get`: first entry with the key. -/
def mapGet {β : Type} (m : List (String × β)) (k : String) : Option β :=
  (m.find? (fun p => p.1 == k)).map (fun p => p.2)

/-- JS-Map `set`: replace in place if the key exists, else append. -/
def mapSet {β : Type} : List (String × β) → String → β → List (String × β)
  | [], k, v => [(k, v)]
  | (k0, v0) :: rest, k, v =>
    if k0 == k then (k0, v) :: rest else (k0, v0) :: mapSet rest k v

/-- JS-Map `delete`: remove the entry with the key. -/
def mapErase {β : Type} : List (String × β) → String → List (String × β)
  | [], _ => []
  | (k0, v0) :: rest, k =>
    if k0 == k then rest else (k0, v0) :: mapErase rest k

/-- Lowercasing (`String.prototype.toLowerCase` on hostnames), written over
the character list so that it reduces in the kernel. -/
def strToLower (s : String) : String := String.mk (s.data.map Char.toLower)

/-- Whitespace trimming (`String.prototype.trim`), written over the
character list so that it reduces in the kernel. -/
def strTrim (s : String) : String :=
  String.mk
    (((s.data.dropWhile Char.isWhitespace).reverse.dropWhile
      Char.isWhitespace).reverse)

/-- JS `x || y` for strings, where the empty string is falsy. -/
def jsOrStr (a b : String) : String := if a == "" then b else a

/-- JS `x || y` where `x` is a possibly-undefined string. -/
def jsOrOptStr (a : Option String) (b : String) : String :=
  match a with
  | some s => if s == "" then b else s
  | none => b

/-- Presence entry (`SystemPresence` in src/infra/system-presence.ts). -/
structure SystemPresence where
  host : Option String
  ip : Option String
  version : Option String
  lastInputSeconds : Option Int
  mode : Option String
  reason : Option String
  instanceId : Option String
  text : String
  ts : Int
deriving DecidableEq, Repr

/-- Presence TTL: 5 minutes (src/infra/system-presence.ts `TTL_MS`). -/
def TTL_MS : Int := 5 * 60 * 1000

/-- Presence registry size cap (src/infra/system-presence.ts `MAX_ENTRIES`). -/
def MAX_ENTRIES : Nat := 200

/-- Host environment of the presence module: `os.hostname()`, the primary
IPv4 address and `CLAWDIS_VERSION` fallback chain, fixed for the process. -/
structure PresenceEnv where
  host : String
  ip : Option String
  version : String

/-- Key of the gateway self-entry: the lowercase hostname. -/
def selfKey (env : PresenceEnv) : String := strToLower env.host

/-- The self presence entry built by `initSelfPresence`. -/
def selfEntry (env : PresenceEnv) (now : Int) : SystemPresence :=
  { host := some env.host
    ip := env.ip
    version := some env.version
    lastInputSeconds := none
    mode := some ("gateway")
    reason := some ("self")
    instanceId := none
    text := "Gateway: " ++ env.host ++
      (match env.ip with
       | some ip => " (" ++ ip ++ ")"
       | none => "") ++
      " · app " ++ env.version ++ " · mode gateway · reason self"
    ts := now }

/-- `initSelfPresence`: seed the registry with the self entry. -/
def initSelfPresence (env : PresenceEnv) (now : Int)
    (m : List (String × SystemPresence)) : List (String × SystemPresence) :=
  mapSet m (selfKey env) (selfEntry env now)

/-- `ensureSelfPresence`: re-seed only when the map is empty. -/
def ensureSelfPresence (env : PresenceEnv) (now : Int)
    (m : List (String × SystemPresence)) : List (String × SystemPresence) :=
  if m.length == 0 then initSelfPresence env now m else m

/-- `touchSelfPresence`: refresh the self entry timestamp, or re-seed it. -/
def touchSelfPresence (env : PresenceEnv) (now : Int)
    (m : List (String × SystemPresence)) : List (String × SystemPresence) :=
  match mapGet m (selfKey env) with
  | some e => mapSet m (selfKey env) { e with ts := now }
  | none => initSelfPresence env now m

/-- A partial presence object passed to `upsertPresence`.  The outer `Option`
records whether the key is present in the JS object literal, the inner one
whether its value is defined (a spread `...presence` copies present keys even
when their value is `undefined`). -/
structure PresencePatch where
  host : Option (Option String)
  ip : Option (Option String)
  version : Option (Option String)
  lastInputSeconds : Option (Option Int)
  mode : Option (Option String)
  reason : Option (Option String)
  instanceId : Option (Option String)
  text : Option (Option String)

/-- Spread semantics for one field: a present key overrides, else keep. -/
def patchField {α : Type} (p : Option (Option α)) (e : Option α) : Option α :=
  match p with
  | some v => v
  | none => e

/-- The `{} as SystemPresence` placeholder used when the key is absent. -/
def emptyPresence : SystemPresence :=
  { host := none, ip := none, version := none, lastInputSeconds := none
    mode := none, reason := none, instanceId := none, text := "", ts := 0 }

/-- `upsertPresence(key, presence)`: merge the patch over the existing entry,
stamp `ts := now`, and compute the `text` fallback chain
`presence.text || existing.text || "Node: <host> · mode <mode>"`. -/
def upsertPresence (key : String) (patch : PresencePatch) (now : Int)
    (m : List (String × SystemPresence)) : List (String × SystemPresence) :=
  let existing := (mapGet m key).getD emptyPresence
  let hostForText := ((patch.host.bind id).or existing.host).getD ("unknown")
  let modeForText := ((patch.mode.bind id).or existing.mode).getD ("unknown")
  let merged : SystemPresence :=
    { host := patchField patch.host existing.host
      ip := patchField patch.ip existing.ip
      version := patchField patch.version existing.version
      lastInputSeconds := patchField patch.lastInputSeconds existing.lastInputSeconds
      mode := patchField patch.mode existing.mode
      reason := patchField patch.reason existing.reason
      instanceId := patchField patch.instanceId existing.instanceId
      text := jsOrStr ((patch.text.bind id).getD "")
        (jsOrStr existing.text
          ("Node: " ++ hostForText ++ " · mode " ++ modeForText))
      ts := now }
  mapSet m key merged

/-- Stable ascending sort order used by `sort((a, b) => a[1].ts - b[1].ts)`. -/
def pairTsLe (a b : String × SystemPresence) : Prop := a.2.ts ≤ b.2.ts

instance : DecidableRel pairTsLe :=
  fun a b => inferInstanceAs (Decidable (a.2.ts ≤ b.2.ts))

/-- Descending order of `sort((a, b) => b.ts - a.ts)` on returned entries. -/
def tsDesc (a b : SystemPresence) : Prop := b.ts ≤ a.ts

instance : DecidableRel tsDesc :=
  fun a b => inferInstanceAs (Decidable (b.ts ≤ a.ts))

instance : IsTotal SystemPresence tsDesc :=
  ⟨fun a b => le_total b.ts a.ts⟩

instance : IsTrans SystemPresence tsDesc :=
  ⟨fun _ _ _ h1 h2 => le_trans h2 h1⟩

/-- `listSystemPresence()`: ensure the self entry, prune entries older than
`TTL_MS`, evict oldest-by-`ts` down to `MAX_ENTRIES` (drop count computed
once), refresh the self entry, and return the values sorted by `ts`
descending.  Returns the mutated registry together with the list. -/
def listSystemPresence (env : PresenceEnv) (now : Int)
    (m : List (String × SystemPresence)) :
    List (String × SystemPresence) × List SystemPresence :=
  let m1 := ensureSelfPresence env now m
  let m2 := m1.filter (fun p => ! decide (now - p.2.ts > TTL_MS))
  let m3 :=
    if m2.length > MAX_ENTRIES then
      let sorted := m2.insertionSort pairTsLe
      ((sorted.take (m2.length - MAX_ENTRIES)).foldl
        (fun acc p => mapErase acc p.1) m2)
    else m2
  let m4 := touchSelfPresence env now m3
  (m4, (m4.map (fun p => p.2)).insertionSort tsDesc)

/-- Error shape produced by `errorShape(code, message)` (no options are passed
anywhere in server.ts, so `details` is never set). -/
structure ErrorShape where
  code : String
  message : String
  retryable : Option Bool
  retryAfterMs : Option Nat
deriving DecidableEq, Repr

/-- The `errorShape` helper with the two arguments server.ts uses. -/
def errorShape (code message : String) : ErrorShape :=
  { code := code, message := message, retryable := none, retryAfterMs := none }

/-- Closed error-code set of the protocol. -/
def INVALID_REQUEST : String := "INVALID_REQUEST"

/-- Error code for collaborator port failures. -/
def UNAVAILABLE : String := "UNAVAILABLE"

/-- Response payloads produced by the method handlers.  Health and status
snapshots come from external ports and are opaque to the gateway core. -/
inductive Payload where
  | sendDone (runId messageId toJid : String)
  | agentDone (runId : String) (status : String) (summary : String)
  | okTrue
  | healthSnap (h : Nat)
  | statusSummary (s : Nat)
  | presenceList (l : List SystemPresence)
deriving DecidableEq, Repr

/-- Dedupe cache entry (server.ts `DedupeEntry`). -/
structure DedupeEntry where
  ts : Int
  ok : Bool
  payload : Option Payload
  error : Option ErrorShape
deriving DecidableEq, Repr

/-- Dedupe TTL: 5 minutes (server.ts `DEDUPE_TTL_MS`). -/
def DEDUPE_TTL_MS : Int := 5 * 60000

/-- Dedupe cache hard cap (server.ts `DEDUPE_MAX`). -/
def DEDUPE_MAX : Nat := 1000

/-- High-water mark for a connection send buffer (`MAX_BUFFERED_BYTES`,
`1.5 * 1024 * 1024` bytes). -/
def MAX_BUFFERED_BYTES : Nat := 1572864

/-- Ascending sort order of `sort((a, b) => a[1].ts - b[1].ts)` on dedupe
cache entries. -/
def dedupePairTsLe (a b : String × DedupeEntry) : Prop := a.2.ts ≤ b.2.ts

instance : DecidableRel dedupePairTsLe :=
  fun a b => inferInstanceAs (Decidable (a.2.ts ≤ b.2.ts))

/-- The body of the cap-eviction loop of the dedupe sweep:
`for (let i = 0; i < dedupe.size - DEDUPE_MAX; i++) dedupe.delete(entries[i][0])`.
The bound `dedupe.size - DEDUPE_MAX` is re-evaluated on every iteration
against the shrinking map, exactly as in the source. -/
def dedupeEvictLoop : List (String × DedupeEntry) → Nat →
    List (String × DedupeEntry) → List (String × DedupeEntry)
  | [], _, m => m
  | p :: rest, i, m =>
    if i < m.length - DEDUPE_MAX then dedupeEvictLoop rest (i + 1) (mapErase m p.1)
    else m

/-- The periodic dedupe sweep (server.ts `dedupeCleanup` interval body):
delete entries older than `DEDUPE_TTL_MS`, then run the cap-eviction loop
over the entries sorted ascending by `ts` when the cache is over the cap. -/
def dedupeCleanup (now : Int) (m : List (String × DedupeEntry)) :
    List (String × DedupeEntry) :=
  let m1 := m.filter (fun p => ! decide (now - p.2.ts > DEDUPE_TTL_MS))
  if m1.length > DEDUPE_MAX then
    dedupeEvictLoop (List.insertionSort dedupePairTsLe m1) 0 m1
  else m1

/-- Agent event published on the process-local bus.  Modelled from the spec:
the bus payload is `{runId, stream, seq, ts, data}` produced by external
collaborators (src/infra/agent-events.ts is outside the covered sources);
the gateway passes it through opaquely. -/
structure AgentEvent where
  runId : String
  stream : String
  busSeq : Nat
  ts : Int
  dataTag : Nat
deriving DecidableEq, Repr

/-- `stateVersion` pair carried on events. -/
structure StateVersion where
  presence : Nat
  health : Nat
deriving DecidableEq, Repr

/-- Payloads of server-initiated `event` frames. -/
inductive EventPayload where
  | tickAt (ts : Int)
  | presenceNow (entries : List SystemPresence)
  | agentAck (runId : String) (status : String)
  | agentBus (e : AgentEvent)
  | shutdownNote (reason : String) (restartExpectedMs : Option Int)
deriving DecidableEq, Repr

/-- Snapshot carried in `hello-ok` (health is filled from the Health port and
opaque here). -/
structure Snapshot where
  presence : List SystemPresence
  health : Nat
  stateVersion : StateVersion
deriving DecidableEq, Repr

/-- Outbound frames the server writes to one socket. -/
inductive OutFrame where
  | res (id : String) (ok : Bool) (payload : Option Payload) (error : Option ErrorShape)
  | event (name : String) (payload : EventPayload) (seq : Nat) (stateVersion : Option StateVersion)
  | helloOk (protocol : Nat) (snapshot : Snapshot)
deriving DecidableEq, Repr

/-- Observable actions of one processing step: frames sent to a socket,
socket closes, collaborator port invocations and the system-event queue. -/
inductive Effect where
  | frameTo (conn : Nat) (frame : OutFrame)
  | closeConn (conn : Nat) (code : Nat) (reason : String)
  | invokeSendPort (toDest message : String) (mediaUrl : Option String)
  | invokeAgentPort (message : String) (toDest sessionId thinking : Option String)
      (deliver : Option Bool) (timeoutStr : Option String)
  | enqueueEvent (text : String)
deriving DecidableEq, Repr

/-- Validated `send` params (SendParamsSchema); `toDest` is the JS field
`to`, which is a reserved word in Lean. -/
structure SendParams where
  toDest : String
  message : String
  mediaUrl : Option String
  provider : Option String
  idempotencyKey : String
deriving DecidableEq, Repr

/-- Validated `agent` params (AgentParamsSchema). -/
structure AgentParams where
  message : String
  toDest : Option String
  sessionId : Option String
  thinking : Option String
  deliver : Option Bool
  timeout : Option Nat
  idempotencyKey : String
deriving DecidableEq, Repr

/-- Abstraction of the `params` member of a request: a value passes
`validateSendParams` and `validateAgentParams` exactly when it has the
corresponding shape; `sysEventText` records the `text` member read by the
system-event handler (already coerced by `String(...)`, absent meaning
`undefined`); `otherVal` is any other JSON value. -/
inductive ParamsVal where
  | noParams
  | sendShaped (p : SendParams)
  | agentShaped (p : AgentParams)
  | sysEventText (text : Option String)
  | otherVal
deriving Repr

/-- The ajv `validateSendParams` check, as a shape match. -/
def validateSendParams : ParamsVal → Option SendParams
  | ParamsVal.sendShaped p => some p
  | _ => none

/-- The ajv `validateAgentParams` check, as a shape match. -/
def validateAgentParams : ParamsVal → Option AgentParams
  | ParamsVal.agentShaped p => some p
  | _ => none

/-- `String((req.params)?.text ?? "")` as read by the system-event handler. -/
def extractText : ParamsVal → String
  | ParamsVal.sysEventText (some t) => t
  | _ => ""

/-- Request frame after envelope validation. -/
structure RequestFrame where
  id : String
  method : String
  params : ParamsVal

/-- One inbound websocket message on a connection that has completed the
handshake: either `JSON.parse` throws, or the envelope fails
`validateRequestFrame` (with an extractable `id` or not, and the formatted
validator issue text), or it is a validated request frame. -/
inductive Inbound where
  | malformed
  | notReq (id : Option String) (detail : String)
  | reqIn (r : RequestFrame)

/-- Outcome of the Delivery port (`sendMessageWhatsApp`). -/
inductive SendOutcome where
  | success (messageId : String) (toJid : Option String)
  | failure (err : String)

/-- Outcome of the Agent port (`agentCommand`). -/
inductive AgentOutcome where
  | success
  | failure (err : String)

/-- Environment-supplied values consumed while handling one message: the
collaborator port results, the opaque health/status snapshots and the
`randomUUID()` drawn for a fresh agent run id. -/
structure Oracle where
  sendResult : SendOutcome
  agentResult : AgentOutcome
  healthValue : Nat
  statusValue : Nat
  freshUUID : String

/-- Process-global gateway state: the READY connections (socket id with the
`instanceId` from its hello), the dedupe cache, the presence registry and
the three counters. -/
structure ServerState where
  clients : List (Nat × Option String)
  dedupe : List (String × DedupeEntry)
  presence : List (String × SystemPresence)
  seq : Nat
  presenceVersion : Nat
  healthVersion : Nat
deriving DecidableEq, Repr

/-- Connection ids of the READY connections. -/
def connIds (st : ServerState) : List Nat := st.clients.map (fun c => c.1)

/-- The `broadcast` closure of server.ts: assign `++seq`, then for every
connection either skip (slow and droppable), close `1008 "slow consumer"`
(slow and non-droppable) or send the event frame.  `buffered` gives each
socket `bufferedAmount` at this instant. -/
def broadcast (clients : List (Nat × Option String)) (buffered : Nat → Nat)
    (name : String) (payload : EventPayload) (dropIfSlow : Bool)
    (stateVersion : Option StateVersion) (seq0 : Nat) : Nat × List Effect :=
  let s := seq0 + 1
  (s, clients.filterMap (fun c =>
    let slow := decide (buffered c.1 > MAX_BUFFERED_BYTES)
    if slow && dropIfSlow then none
    else if slow then some (Effect.closeConn c.1 1008 ("slow consumer"))
    else some (Effect.frameTo c.1 (OutFrame.event name payload s stateVersion))))

/-- The patch of the `upsertPresence` call made on a successful hello
(`host`, `version`, `mode`, `instanceId`, `reason: "connect"`). -/
def connectPatch (env : PresenceEnv) (instanceId : Option String)
    (mode : String) : PresencePatch :=
  { host := some (some env.host)
    ip := none
    version := some (some env.version)
    lastInputSeconds := none
    mode := some (some mode)
    reason := some (some ("connect"))
    instanceId := some instanceId
    text := none }

/-- The patch of the `upsertPresence` call made on socket close
(`reason: "disconnect"` only). -/
def disconnectPatch : PresencePatch :=
  { host := none, ip := none, version := none, lastInputSeconds := none
    mode := none, reason := some (some ("disconnect")), instanceId := none
    text := none }

/-- Presence registry key of a connection: `hello.client.instanceId || connId`
(the connection id rendered as a string stands in for the `randomUUID()`
value). -/
def presenceKeyOf (conn : Nat) (instanceId : Option String) : String :=
  jsOrOptStr instanceId (toString conn)

/-- The post-handshake `message` handler of server.ts (the `socket.on`
callback after `client` is set): parse failures are caught and only logged;
non-`req` frames get an `INVALID_REQUEST` res; `req` frames are dispatched by
method.  Returns the new process state and the observable effects in program
order. -/
def handleMessage (env : PresenceEnv) (st : ServerState) (conn : Nat)
    (inb : Inbound) (orc : Oracle) (now : Int) (buffered : Nat → Nat) :
    ServerState × List Effect :=
  match inb with
  | Inbound.malformed => (st, [])
  | Inbound.notReq badId detail =>
    (st, [Effect.frameTo conn (OutFrame.res (badId.getD ("invalid")) false none
      (some (errorShape INVALID_REQUEST ("invalid request frame: " ++ detail))))])
  | Inbound.reqIn r =>
    match r.method with
    | "health" =>
      ({ st with healthVersion := st.healthVersion + 1 },
       [Effect.frameTo conn (OutFrame.res r.id true
         (some (Payload.healthSnap orc.healthValue)) none)])
    | "status" =>
      (st, [Effect.frameTo conn (OutFrame.res r.id true
        (some (Payload.statusSummary orc.statusValue)) none)])
    | "system-presence" =>
      let lp := listSystemPresence env now st.presence
      ({ st with presence := lp.1 },
       [Effect.frameTo conn (OutFrame.res r.id true
         (some (Payload.presenceList lp.2)) none)])
    | "system-event" =>
      let text := strTrim (extractText r.params)
      if text == "" then
        (st, [Effect.frameTo conn (OutFrame.res r.id false none
          (some (errorShape INVALID_REQUEST ("text required"))))])
      else
        let pv := st.presenceVersion + 1
        let lp := listSystemPresence env now st.presence
        let b := broadcast st.clients buffered ("presence")
          (EventPayload.presenceNow lp.2) true
          (some { presence := pv, health := st.healthVersion }) st.seq
        let st1 : ServerState :=
          { st with presence := lp.1, presenceVersion := pv, seq := b.1 }
        (st1, Effect.enqueueEvent text :: b.2 ++
           [Effect.frameTo conn (OutFrame.res r.id true (some Payload.okTrue) none)])
    | "set-heartbeats" =>
      (st, [Effect.frameTo conn (OutFrame.res r.id true (some Payload.okTrue) none)])
    | "send" =>
      match validateSendParams r.params with
      | none =>
        (st, [Effect.frameTo conn (OutFrame.res r.id false none
          (some (errorShape INVALID_REQUEST ("invalid send params"))))])
      | some p =>
        let idem := p.idempotencyKey
        match mapGet st.dedupe ("send:" ++ idem) with
        | some cached =>
          (st, [Effect.frameTo conn
            (OutFrame.res r.id cached.ok cached.payload cached.error)])
        | none =>
          let toT := strTrim p.toDest
          let message := strTrim p.message
          match orc.sendResult with
          | SendOutcome.success messageId toJid =>
            let payload := Payload.sendDone idem messageId
              (toJid.getD (toT ++ "@s.whatsapp.net"))
            let entry : DedupeEntry :=
              { ts := now, ok := true, payload := some payload, error := none }
            ({ st with dedupe := mapSet st.dedupe ("send:" ++ idem) entry },
             [Effect.invokeSendPort toT message p.mediaUrl,
              Effect.frameTo conn (OutFrame.res r.id true (some payload) none)])
          | SendOutcome.failure err =>
            let e := errorShape UNAVAILABLE err
            let entry : DedupeEntry :=
              { ts := now, ok := false, payload := none, error := some e }
            ({ st with dedupe := mapSet st.dedupe ("send:" ++ idem) entry },
             [Effect.invokeSendPort toT message p.mediaUrl,
              Effect.frameTo conn (OutFrame.res r.id false none (some e))])
    | "agent" =>
      match validateAgentParams r.params with
      | none =>
        (st, [Effect.frameTo conn (OutFrame.res r.id false none
          (some (errorShape INVALID_REQUEST ("invalid agent params"))))])
      | some p =>
        let idem := p.idempotencyKey
        match mapGet st.dedupe ("agent:" ++ idem) with
        | some cached =>
          (st, [Effect.frameTo conn
            (OutFrame.res r.id cached.ok cached.payload cached.error)])
        | none =>
          let message := strTrim p.message
          let runId := jsOrOptStr p.sessionId orc.freshUUID
          let ackSeq := st.seq + 1
          let ack := Effect.frameTo conn
            (OutFrame.event ("agent") (EventPayload.agentAck runId ("accepted"))
              ackSeq none)
          let invoke := Effect.invokeAgentPort message p.toDest p.sessionId
            p.thinking p.deliver (p.timeout.map (fun t => toString t))
          match orc.agentResult with
          | AgentOutcome.success =>
            let payload := Payload.agentDone runId ("ok") ("completed")
            let entry : DedupeEntry :=
              { ts := now, ok := true, payload := some payload, error := none }
            ({ st with
                seq := ackSeq
                dedupe := mapSet st.dedupe ("agent:" ++ idem) entry },
             [ack, invoke,
              Effect.frameTo conn (OutFrame.res r.id true (some payload) none)])
          | AgentOutcome.failure err =>
            let e := errorShape UNAVAILABLE err
            let payload := Payload.agentDone runId ("error") err
            let entry : DedupeEntry :=
              { ts := now, ok := false, payload := some payload, error := some e }
            ({ st with
                seq := ackSeq
                dedupe := mapSet st.dedupe ("agent:" ++ idem) entry },
             [ack, invoke,
              Effect.frameTo conn (OutFrame.res r.id false (some payload) (some e))])
    | _ =>
      (st, [Effect.frameTo conn (OutFrame.res r.id false none
        (some (errorShape INVALID_REQUEST ("unknown method: " ++ r.method))))])

/-- One atomic scheduling step of the gateway process: a successful handshake
(the hello branch of the message handler), an inbound post-handshake message,
a socket close, a bus-published agent event, a tick, a dedupe sweep, or the
server shutdown.  `buffered` supplies each socket buffer level at the step. -/
inductive Step where
  | connect (conn : Nat) (instanceId : Option String) (mode : String)
      (now : Int) (health : Nat)
  | message (conn : Nat) (inb : Inbound) (orc : Oracle) (now : Int)
      (buffered : Nat → Nat)
  | disconnect (conn : Nat) (now : Int) (buffered : Nat → Nat)
  | busEvent (e : AgentEvent) (buffered : Nat → Nat)
  | tickStep (now : Int) (buffered : Nat → Nat)
  | sweep (now : Int)
  | shutdownStep (buffered : Nat → Nat)

/-- Execute one step from a state, producing the effects in program order. -/
def runStep (env : PresenceEnv) (st : ServerState) : Step → ServerState × List Effect
  | Step.connect conn instanceId mode now health =>
    let key := presenceKeyOf conn instanceId
    let m1 := upsertPresence key (connectPatch env instanceId mode) now st.presence
    let pv := st.presenceVersion + 1
    let lp := listSystemPresence env now m1
    let hv := st.healthVersion + 1
    let st1 : ServerState :=
      { st with
          clients := st.clients ++ [(conn, instanceId)]
          presence := lp.1
          presenceVersion := pv
          healthVersion := hv }
    let snap : Snapshot :=
      { presence := lp.2
        health := health
        stateVersion := { presence := pv, health := hv } }
    (st1, [Effect.frameTo conn (OutFrame.helloOk 1 snap)])
  | Step.message conn inb orc now buffered =>
    handleMessage env st conn inb orc now buffered
  | Step.disconnect conn now buffered =>
    match st.clients.find? (fun c => c.1 == conn) with
    | none => (st, [])
    | some c =>
      let key := presenceKeyOf conn c.2
      let m1 := upsertPresence key disconnectPatch now st.presence
      let pv := st.presenceVersion + 1
      let lp := listSystemPresence env now m1
      let b := broadcast st.clients buffered ("presence")
        (EventPayload.presenceNow lp.2) true
        (some { presence := pv, health := st.healthVersion }) st.seq
      let st1 : ServerState :=
        { st with
            clients := st.clients.filter (fun d => ! (d.1 == conn))
            presence := lp.1
            presenceVersion := pv
            seq := b.1 }
      (st1, b.2 ++ [Effect.closeConn conn 1000 ("")])
  | Step.busEvent e buffered =>
    let b := broadcast st.clients buffered ("agent") (EventPayload.agentBus e)
      false none st.seq
    ({ st with seq := b.1 }, b.2)
  | Step.tickStep now buffered =>
    let b := broadcast st.clients buffered ("tick") (EventPayload.tickAt now)
      true none st.seq
    ({ st with seq := b.1 }, b.2)
  | Step.sweep now =>
    ({ st with dedupe := dedupeCleanup now st.dedupe }, [])
  | Step.shutdownStep buffered =>
    let b := broadcast st.clients buffered ("shutdown")
      (EventPayload.shutdownNote ("gateway stopping") none) false none st.seq
    let st1 : ServerState := { st with clients := [], seq := b.1 }
    (st1, b.2 ++ st.clients.map (fun c => Effect.closeConn c.1 1012 ("service restart")))

/-- Execute a list of steps, concatenating the effects in order. -/
def runTrace (env : PresenceEnv) : ServerState → List Step → ServerState × List Effect
  | st, [] => (st, [])
  | st, s :: rest =>
    let r1 := runStep env st s
    let r2 := runTrace env r1.1 rest
    (r2.1, r1.2 ++ r2.2)

/-- Sequence numbers of the event frames sent to one connection, in order. -/
def eventSeqsTo (conn : Nat) (effs : List Effect) : List Nat :=
  effs.filterMap (fun e =>
    match e with
    | Effect.frameTo c (OutFrame.event _ _ s _) =>
      if c == conn then some s else none
    | _ => none)

/-- The `(ok, payload, error)` triples of the res frames with a given id sent
to one connection, in order. -/
def resTriplesTo (conn : Nat) (id : String) (effs : List Effect) :
    List (Bool × Option Payload × Option ErrorShape) :=
  effs.filterMap (fun e =>
    match e with
    | Effect.frameTo c (OutFrame.res i ok p er) =>
      if c == conn && i == id then some (ok, p, er) else none
    | _ => none)

/-- Whether an effect closes a socket. -/
def isCloseEffect : Effect → Bool
  | Effect.closeConn _ _ _ => true
  | _ => false

/-- Whether an effect sends a presence event frame to the given connection. -/
def isPresenceEventTo (conn : Nat) : Effect → Bool
  | Effect.frameTo c (OutFrame.event name _ _ _) => c == conn && name == "presence"
  | _ => false

/-- Whether an effect sends a res frame with the given id to the connection. -/
def isResTo (conn : Nat) (id : String) : Effect → Bool
  | Effect.frameTo c (OutFrame.res i _ _ _) => c == conn && i == id
  | _ => false

/-- Whether an effect invokes a collaborator port or the system-event queue. -/
def isInvokeEffect : Effect → Bool
  | Effect.invokeSendPort _ _ _ => true
  | Effect.invokeAgentPort _ _ _ _ _ _ => true
  | Effect.enqueueEvent _ => true
  | _ => false

/-- A validated mutating request together with its request id and dedupe
cache key, as computed by the send and agent handlers. -/
def mutatingReqKey : Inbound → Option (String × String)
  | Inbound.reqIn r =>
    match r.method, r.params with
    | "send", ParamsVal.sendShaped p => some (r.id, "send:" ++ p.idempotencyKey)
    | "agent", ParamsVal.agentShaped p => some (r.id, "agent:" ++ p.idempotencyKey)
    | _, _ => none
  | _ => none

/-- Conditions under which the steps of a trace are guaranteed not to evict a
dedupe entry stamped at `ts0`: every sweep runs within the dedupe TTL of
`ts0` and while the cache is within its cap (so the sweep of server.ts only
deletes expired entries). -/
def safeFor (env : PresenceEnv) (ts0 : Int) : ServerState → List Step → Bool
  | _, [] => true
  | st, s :: rest =>
    (match s with
     | Step.sweep now =>
       decide (now - ts0 ≤ DEDUPE_TTL_MS) && decide (st.dedupe.length ≤ DEDUPE_MAX)
     | _ => true) && safeFor env ts0 (runStep env st s).1 rest

/-- Well-formedness of a trace: every `connect` step introduces a connection
id not currently in the client set (connection ids are fresh `randomUUID()`
values in the source). -/
def wfTrace (env : PresenceEnv) : ServerState → List Step → Bool
  | _, [] => true
  | st, s :: rest =>
    (match s with
     | Step.connect c _ _ _ _ => ! (connIds st).contains c
     | _ => true) && wfTrace env (runStep env st s).1 rest

/-- The event branch of `GatewayClient.handleMessage` (client.ts): given the
stored `lastSeq` and the `seq` of an incoming event frame (absent when not a
number), return the gap-callback invocation, if any, and the new `lastSeq`. -/
def clientHandleEvent (lastSeq : Option Int) (seq : Option Int) :
    Option (Int × Int) × Option Int :=
  match seq with
  | none => (none, lastSeq)
  | some s =>
    let gap :=
      match lastSeq with
      | some l => if s > l + 1 then some (l + 1, s) else none
      | none => none
    (gap, some s)

set_option maxRecDepth 40000

theorem mapGet_mapSet_self {β : Type} (m : List (String × β)) (k : String) (v : β) :
    mapGet (mapSet m k v) k = some v := by
  induction m with
  | nil => simp [mapGet, mapSet, List.find?]
  | cons hd tl ih =>
    by_cases h : hd.1 == k
    · cases hd with
      | mk k0 v0 =>
        simp only at h
        simp [mapSet, h, mapGet, List.find?]
    · cases hd with
      | mk k0 v0 =>
        simp only at h
        simp only [mapSet, h]
        simp only [mapGet, List.find?, h] at ih ⊢
        exact ih

theorem mapGet_mapSet_ne {β : Type} (m : List (String × β)) (k1 k2 : String) (v : β)
    (h : (k2 == k1) = false) : mapGet (mapSet m k1 v) k2 = mapGet m k2 := by
  induction m with
  | nil =>
    have h1 : (k1 == k2) = false := by
      cases hb : k1 == k2
      · rfl
      · exact absurd (by simp [beq_iff_eq] at hb ⊢; exact hb.symm) (by simp [beq_iff_eq] at h ⊢; exact h)
    simp [mapGet, mapSet, List.find?, h1]
  | cons hd tl ih =>
    cases hd with
    | mk k0 v0 =>
      by_cases h0 : k0 == k1
      · have h2 : (k0 == k2) = false := by
          have e0 : k0 = k1 := by simpa [beq_iff_eq] using h0
          have e2 : k2 ≠ k1 := by simpa [beq_iff_eq] using h
          subst e0
          simp [beq_iff_eq]
          exact fun hc => e2 hc.symm
        simp [mapSet, h0, mapGet, List.find?, h2]
      · simp only at h0
        rw [Bool.not_eq_true] at h0
        simp only [mapSet, h0, Bool.false_eq_true, if_false]
        by_cases h2 : k0 == k2
        · simp [mapGet, List.find?, h2]
        · simp only at h2
          rw [Bool.not_eq_true] at h2
          simp only [mapGet, List.find?, h2] at ih ⊢
          exact ih

theorem mapGet_filter_snd {β : Type} (f : β → Bool) (m : List (String × β))
    (k : String) (v : β) (h : mapGet m k = some v) (hf : f v = true) :
    mapGet (m.filter (fun q => f q.2)) k = some v := by
  induction m with
  | nil => simp [mapGet] at h
  | cons hd tl ih =>
    cases hd with
    | mk k0 v0 =>
      by_cases h0 : k0 == k
      · have hv : v0 = v := by
          simp [mapGet, List.find?, h0] at h
          exact h
        subst hv
        simp [mapGet, List.find?, h0, hf]
      · simp only at h0
        rw [Bool.not_eq_true] at h0
        simp only [mapGet, List.find?, h0] at h
        by_cases hf0 : f v0
        · simp only [List.filter, hf0, mapGet, List.find?, h0]
          exact ih h
        · simp only at hf0
          rw [Bool.not_eq_true] at hf0
          simp only [List.filter, hf0]
          exact ih h

/-- C6: the claim says a post-handshake message that fails `JSON.parse` is
answered with `res`, id `"invalid"`, error `INVALID_REQUEST`, and the
connection stays open.  In the code the catch block only logs when the
handshake is complete — despite its own comment, which promises to respond
with an error — so no frame at all is sent and the state is untouched (the
connection does stay open).  This theorem documents the actual behavior. -/
theorem malformed_post_handshake_message_is_silently_dropped :
    ∀ (env : PresenceEnv) (st : ServerState) (conn : Nat) (orc : Oracle)
      (now : Int) (buffered : Nat → Nat),
    runStep env st (Step.message conn Inbound.malformed orc now buffered) = (st, []) := by
  intro env st conn orc now buffered
  rfl

/-- C10: an agent request whose dedupe key is already cached produces exactly
the cached final res — no agent accepted event, no sequence number consumed
(the state, including `seq`, is unchanged) and no agent command invocation. -/
theorem agent_cached_replay_no_ack_no_invoke :
    ∀ (env : PresenceEnv) (st : ServerState) (conn : Nat) (rid : String)
      (p : AgentParams) (orc : Oracle) (now : Int) (buffered : Nat → Nat)
      (e : DedupeEntry),
    mapGet st.dedupe ("agent:" ++ p.idempotencyKey) = some e →
    runStep env st (Step.message conn
      (Inbound.reqIn { id := rid, method := "agent", params := ParamsVal.agentShaped p })
      orc now buffered) =
      (st, [Effect.frameTo conn (OutFrame.res rid e.ok e.payload e.error)]) := by
  intro env st conn rid p orc now buffered e h
  simp [runStep, handleMessage, validateAgentParams, h]

/-- C9: the gap branch of the client event handler: for an event frame with a
numeric `seq`, `lastSeq` is always updated to `seq`, and the gap callback
fires with `(lastSeq + 1, seq)` exactly when `lastSeq` was set and
`seq > lastSeq + 1`. -/
theorem client_gap_callback_spec :
    ∀ (lastSeq : Option Int) (s : Int),
    (clientHandleEvent lastSeq (some s)).2 = some s ∧
    ((clientHandleEvent lastSeq (some s)).1 ≠ none ↔
      ∃ l, lastSeq = some l ∧ l + 1 < s) ∧
    (∀ l, lastSeq = some l → l + 1 < s →
      (clientHandleEvent lastSeq (some s)).1 = some (l + 1, s)) ∧
    (∀ l, lastSeq = some l → ¬ l + 1 < s →
      (clientHandleEvent lastSeq (some s)).1 = none) ∧
    (lastSeq = none → (clientHandleEvent lastSeq (some s)).1 = none) := by
  intro lastSeq s
  cases lastSeq with
  | none => simp [clientHandleEvent]
  | some l =>
    by_cases h : l + 1 < s
    · simp [clientHandleEvent, h]
      try omega
    · have hlt : ¬ s > l + 1 := h
      simp [clientHandleEvent, hlt]
      try omega

theorem client_gap_callback_spec_witness :
    (clientHandleEvent (some 3) (some 5)).1 = some (4, 5) :=
  (client_gap_callback_spec (some 3) 5).2.2.1 3 rfl (by decide)

/-- Concrete dedupe cache of 1002 fresh entries with distinct keys, all
stamped at time 0 — within the cap scenario of the claim. -/
def bigDedupe : List (String × DedupeEntry) :=
  (List.range 1002).map (fun i =>
    (toString i, { ts := 0, ok := true, payload := none, error := none }))

/-- C4: the sweep is claimed to evict oldest entries until at most
`DEDUPE_MAX = 1000` remain.  The eviction loop re-reads `dedupe.size` while
deleting, so on a cache of 1002 fresh entries it deletes a single entry and
leaves 1001 — above the cap.  (The TTL half does hold; at `now = 0` no entry
is expired.) -/
theorem dedupeCleanup_leaves_cache_over_cap :
    bigDedupe.length = 1002 ∧
    (dedupeCleanup 0 bigDedupe).length = 1001 ∧
    DEDUPE_MAX < (dedupeCleanup 0 bigDedupe).length := by
  exact ⟨by decide, by decide, by decide⟩

theorem mapGet_mem_values {β : Type} (m : List (String × β)) (k : String) (v : β)
    (h : mapGet m k = some v) : v ∈ m.map (fun p => p.2) := by
  simp only [mapGet, Option.map_eq_some'] at h
  obtain ⟨p, hp, hv⟩ := h
  have hm := List.mem_of_find?_eq_some hp
  subst hv
  exact List.mem_map_of_mem _ hm

theorem mem_mapSet {β : Type} (m : List (String × β)) (k : String) (v : β)
    (x : String × β) (h : x ∈ mapSet m k v) : x = (k, v) ∨ x ∈ m := by
  induction m with
  | nil =>
    simp [mapSet] at h
    exact Or.inl h
  | cons hd tl ih =>
    cases hd with
    | mk k0 v0 =>
      by_cases h0 : k0 == k
      · simp only [mapSet, h0, if_true] at h
        rcases List.mem_cons.mp h with h1 | h1
        · have e0 : k0 = k := by simpa [beq_iff_eq] using h0
          subst e0
          exact Or.inl h1
        · exact Or.inr (List.mem_cons_of_mem _ h1)
      · simp only at h0
        rw [Bool.not_eq_true] at h0
        simp only [mapSet, h0, Bool.false_eq_true, if_false] at h
        rcases List.mem_cons.mp h with h1 | h1
        · exact Or.inr (h1 ▸ List.mem_cons_self _ _)
        · rcases ih h1 with h2 | h2
          · exact Or.inl h2
          · exact Or.inr (List.mem_cons_of_mem _ h2)

theorem mem_mapErase {β : Type} (m : List (String × β)) (k : String)
    (x : String × β) (h : x ∈ mapErase m k) : x ∈ m := by
  induction m with
  | nil => simp [mapErase] at h
  | cons hd tl ih =>
    cases hd with
    | mk k0 v0 =>
      by_cases h0 : k0 == k
      · simp only [mapErase, h0, if_true] at h
        exact List.mem_cons_of_mem _ h
      · simp only at h0
        rw [Bool.not_eq_true] at h0
        simp only [mapErase, h0, Bool.false_eq_true, if_false] at h
        rcases List.mem_cons.mp h with h1 | h1
        · exact h1 ▸ List.mem_cons_self _ _
        · exact List.mem_cons_of_mem _ (ih h1)

theorem mem_foldl_mapErase {β : Type} (l : List (String × β))
    (m : List (String × β)) (x : String × β)
    (h : x ∈ l.foldl (fun acc p => mapErase acc p.1) m) : x ∈ m := by
  induction l generalizing m with
  | nil => simpa using h
  | cons hd tl ih =>
    simp only [List.foldl_cons] at h
    exact mem_mapErase _ _ _ (ih _ h)

theorem touchSelf_get (env : PresenceEnv) (now : Int)
    (m : List (String × SystemPresence)) :
    ∃ e, mapGet (touchSelfPresence env now m) (selfKey env) = some e ∧ e.ts = now := by
  unfold touchSelfPresence
  cases h : mapGet m (selfKey env) with
  | some e0 =>
    exact ⟨{ e0 with ts := now }, mapGet_mapSet_self _ _ _, rfl⟩
  | none =>
    exact ⟨selfEntry env now, mapGet_mapSet_self _ _ _, rfl⟩

theorem mem_touchSelf_ts (env : PresenceEnv) (now : Int)
    (m : List (String × SystemPresence)) (x : String × SystemPresence)
    (h : x ∈ touchSelfPresence env now m) : x.2.ts = now ∨ x ∈ m := by
  unfold touchSelfPresence at h
  cases hg : mapGet m (selfKey env) with
  | some e0 =>
    rw [hg] at h
    rcases mem_mapSet _ _ _ _ h with h1 | h1
    · exact Or.inl (by rw [h1])
    · exact Or.inr h1
  | none =>
    rw [hg] at h
    rcases mem_mapSet _ _ _ _ h with h1 | h1
    · exact Or.inl (by rw [h1]; rfl)
    · exact Or.inr h1

theorem TTL_MS_nonneg : (0 : Int) ≤ TTL_MS := by decide

/-- C8: every `listSystemPresence` call returns a list that contains the
gateway self entry stamped with the current time, contains no entry older
than the 5-minute TTL, and is sorted by `ts` descending. -/
theorem listSystemPresence_self_ttl_sorted :
    ∀ (env : PresenceEnv) (now : Int) (m : List (String × SystemPresence)),
    (∃ e, mapGet (listSystemPresence env now m).1 (selfKey env) = some e ∧
      e.ts = now ∧ e ∈ (listSystemPresence env now m).2) ∧
    (∀ e, e ∈ (listSystemPresence env now m).2 → now - e.ts ≤ TTL_MS) ∧
    List.Sorted tsDesc (listSystemPresence env now m).2 := by
  intro env now m
  unfold listSystemPresence
  set m1 := ensureSelfPresence env now m with hm1
  set m2 := m1.filter (fun p => ! decide (now - p.2.ts > TTL_MS)) with hm2
  set m3 := (if m2.length > MAX_ENTRIES then
      ((List.insertionSort pairTsLe m2).take (m2.length - MAX_ENTRIES)).foldl
        (fun acc p => mapErase acc p.1) m2
    else m2) with hm3
  have hmem3 : ∀ x, x ∈ m3 → x ∈ m2 := by
    intro x hx
    rw [hm3] at hx
    by_cases hc : m2.length > MAX_ENTRIES
    · rw [if_pos hc] at hx
      exact mem_foldl_mapErase _ _ _ hx
    · rwa [if_neg hc] at hx
  have hmem2 : ∀ x : String × SystemPresence, x ∈ m2 → now - x.2.ts ≤ TTL_MS := by
    intro x hx
    rw [hm2] at hx
    have := (List.mem_filter.mp hx).2
    simp only [Bool.not_eq_eq_eq_not, Bool.not_true, decide_eq_false_iff_not, not_lt] at this
    exact this
  set m4 := touchSelfPresence env now m3 with hm4
  refine ⟨?_, ?_, ?_⟩
  · obtain ⟨e, hget, hts⟩ := touchSelf_get env now m3
    refine ⟨e, by rw [← hm4] at hget; exact hget, hts, ?_⟩
    have hv : e ∈ m4.map (fun p => p.2) := by
      apply mapGet_mem_values _ (selfKey env)
      rw [← hm4] at hget
      exact hget
    exact ((List.perm_insertionSort tsDesc _).mem_iff).mpr hv
  · intro e he
    have hv : e ∈ m4.map (fun p => p.2) :=
      ((List.perm_insertionSort tsDesc _).mem_iff).mp he
    obtain ⟨p, hp, hpe⟩ := List.mem_map.mp hv
    rcases mem_touchSelf_ts env now m3 p hp with h1 | h1
    · rw [← hpe, h1]
      simpa using TTL_MS_nonneg
    · rw [← hpe]
      exact hmem2 p (hmem3 p h1)
  · exact List.sorted_insertionSort tsDesc _

/-- Concrete presence environment used by witnesses. -/
def envW : PresenceEnv := { host := "Host", ip := none, version := "1.0" }

theorem listSystemPresence_self_ttl_sorted_witness :
    (5 : Int) - (selfEntry envW 5).ts ≤ TTL_MS :=
  (listSystemPresence_self_ttl_sorted envW 5 []).2.1 (selfEntry envW 5) (by decide)

/-- Whether an effect is a slow-consumer close (`close(1008, "slow consumer")`). -/
def isSlowClose : Effect → Bool
  | Effect.closeConn _ code reason => code == 1008 && reason == "slow consumer"
  | _ => false

theorem broadcast_mem_shape (clients : List (Nat × Option String))
    (buffered : Nat → Nat) (name : String) (payload : EventPayload)
    (dropIfSlow : Bool) (sv : Option StateVersion) (seq0 : Nat) (x : Effect)
    (hx : x ∈ (broadcast clients buffered name payload dropIfSlow sv seq0).2) :
    (∃ c, x = Effect.closeConn c 1008 ("slow consumer") ∧ dropIfSlow = false) ∨
    (∃ c, x = Effect.frameTo c (OutFrame.event name payload (seq0 + 1) sv)) := by
  simp only [broadcast] at hx
  obtain ⟨a, _, hfa⟩ := List.mem_filterMap.mp hx
  by_cases hs : decide (buffered a.1 > MAX_BUFFERED_BYTES) = true
  · cases hd : dropIfSlow with
    | true =>
      rw [hs, hd] at hfa
      simp at hfa
    | false =>
      rw [hs, hd] at hfa
      simp only [Bool.and_false, Bool.false_eq_true, if_false, hs, if_true,
        Option.some_inj] at hfa
      exact Or.inl ⟨a.1, hfa.symm, rfl⟩
  · rw [Bool.not_eq_true] at hs
    rw [hs] at hfa
    simp only [Bool.false_and, Bool.false_eq_true, if_false, Option.some_inj] at hfa
    exact Or.inr ⟨a.1, hfa.symm⟩

theorem broadcast_mem_frame (clients : List (Nat × Option String))
    (buffered : Nat → Nat) (name : String) (payload : EventPayload)
    (dropIfSlow : Bool) (sv : Option StateVersion) (seq0 : Nat) (c : Nat)
    (hc : c ∈ clients.map (fun p => p.1))
    (hs : ¬ buffered c > MAX_BUFFERED_BYTES) :
    Effect.frameTo c (OutFrame.event name payload (seq0 + 1) sv) ∈
      (broadcast clients buffered name payload dropIfSlow sv seq0).2 := by
  obtain ⟨p, hp, hpc⟩ := List.mem_map.mp hc
  simp only [broadcast]
  apply List.mem_filterMap.mpr
  refine ⟨p, hp, ?_⟩
  rw [hpc]
  have hd : decide (buffered c > MAX_BUFFERED_BYTES) = false := by
    simpa using hs
  rw [hd]
  simp

theorem broadcast_droppable_no_close (clients : List (Nat × Option String))
    (buffered : Nat → Nat) (name : String) (payload : EventPayload)
    (sv : Option StateVersion) (seq0 : Nat) (x : Effect)
    (hx : x ∈ (broadcast clients buffered name payload true sv seq0).2) :
    ∃ c, x = Effect.frameTo c (OutFrame.event name payload (seq0 + 1) sv) := by
  rcases broadcast_mem_shape clients buffered name payload true sv seq0 x hx with
    ⟨c, _, hcontra⟩ | h
  · cases hcontra
  · exact h

theorem resTriplesTo_broadcast (conn : Nat) (rid : String)
    (clients : List (Nat × Option String)) (buffered : Nat → Nat)
    (name : String) (payload : EventPayload) (dropIfSlow : Bool)
    (sv : Option StateVersion) (seq0 : Nat) :
    resTriplesTo conn rid (broadcast clients buffered name payload dropIfSlow sv seq0).2 = [] := by
  apply List.filterMap_eq_nil_iff.mpr
  intro x hx
  rcases broadcast_mem_shape clients buffered name payload dropIfSlow sv seq0 x hx with
    ⟨c, hc, _⟩ | ⟨c, hc⟩ <;> subst hc <;> rfl

/-- Baseline oracle used in concrete runs. -/
def orcW : Oracle :=
  { sendResult := SendOutcome.success ("msg-1") none
    agentResult := AgentOutcome.success
    healthValue := 0
    statusValue := 0
    freshUUID := "uuid-1" }

/-- Concrete gateway state with one READY connection. -/
def stW : ServerState :=
  { clients := [(1, none)], dedupe := [], presence := []
    seq := 0, presenceVersion := 1, healthVersion := 1 }

/-- All sockets idle. -/
def bufW : Nat → Nat := fun _ => 0

/-- All sockets over the 1.5 MiB high-water mark. -/
def bufSlowW : Nat → Nat := fun _ => 2000000

/-- A system-event request with non-empty text. -/
def sysEvReqW : Inbound :=
  Inbound.reqIn
    { id := "e1", method := "system-event"
      params := ParamsVal.sysEventText (some "note") }

/-- A system-event request whose text is a single blank. -/
def wsEvReqW : Inbound :=
  Inbound.reqIn
    { id := "e2", method := "system-event"
      params := ParamsVal.sysEventText (some " ") }

/-- C7 counterexample: the claim reads `INVALID_REQUEST` only for empty
`params.text` and promises the push/broadcast/ok-res for any other text.
For the non-empty text `" "` the handler trims before testing, so it answers
`INVALID_REQUEST` (`"text required"`), enqueues nothing and broadcasts
nothing. -/
theorem system_event_blank_text_counterexample :
    (" " : String) ≠ "" ∧
    (runStep envW stW (Step.message 1 wsEvReqW orcW 0 bufW)).2 =
      [Effect.frameTo 1 (OutFrame.res ("e2") false none
        (some (errorShape INVALID_REQUEST ("text required"))))] ∧
    (runStep envW stW (Step.message 1 wsEvReqW orcW 0 bufW)).1 = stW := by
  exact ⟨by decide, by decide, by decide⟩

/-- C7 amended: the system-event handler answers `INVALID_REQUEST` with
message `"text required"` exactly when `params.text` trims to the empty
string (leaving the state untouched); otherwise it enqueues the trimmed
text, bumps `presenceVersion`, broadcasts a presence event carrying the
current presence list and the new state version to every connection that is
not a slow consumer, and answers `ok` with payload `{ok:true}`. -/
theorem system_event_spec :
    ∀ (env : PresenceEnv) (st : ServerState) (conn : Nat) (rid : String)
      (pv : ParamsVal) (orc : Oracle) (now : Int) (buffered : Nat → Nat),
    (strTrim (extractText pv) = "" →
      runStep env st (Step.message conn
        (Inbound.reqIn { id := rid, method := "system-event", params := pv })
        orc now buffered) =
        (st, [Effect.frameTo conn (OutFrame.res rid false none
          (some (errorShape INVALID_REQUEST ("text required"))))])) ∧
    (strTrim (extractText pv) ≠ "" →
      Effect.enqueueEvent (strTrim (extractText pv)) ∈
        (runStep env st (Step.message conn
          (Inbound.reqIn { id := rid, method := "system-event", params := pv })
          orc now buffered)).2 ∧
      (runStep env st (Step.message conn
        (Inbound.reqIn { id := rid, method := "system-event", params := pv })
        orc now buffered)).1.presenceVersion = st.presenceVersion + 1 ∧
      resTriplesTo conn rid (runStep env st (Step.message conn
        (Inbound.reqIn { id := rid, method := "system-event", params := pv })
        orc now buffered)).2 = [(true, some Payload.okTrue, none)] ∧
      (∀ c, c ∈ connIds st → ¬ buffered c > MAX_BUFFERED_BYTES →
        Effect.frameTo c (OutFrame.event ("presence")
          (EventPayload.presenceNow (listSystemPresence env now st.presence).2)
          (st.seq + 1)
          (some { presence := st.presenceVersion + 1, health := st.healthVersion })) ∈
          (runStep env st (Step.message conn
            (Inbound.reqIn { id := rid, method := "system-event", params := pv })
            orc now buffered)).2)) := by
  intro env st conn rid pv orc now buffered
  constructor
  · intro h
    have hb : (strTrim (extractText pv) == "") = true := by simpa using h
    simp [runStep, handleMessage, hb]
  · intro h
    have hb : (strTrim (extractText pv) == "") = false := by simpa using h
    simp only [runStep, handleMessage, hb, Bool.false_eq_true, if_false]
    refine ⟨List.mem_cons_self _ _, trivial, ?_, ?_⟩
    · simp only [resTriplesTo, List.filterMap_cons, List.filterMap_append]
      rw [show (List.filterMap _ (broadcast st.clients buffered ("presence")
          (EventPayload.presenceNow (listSystemPresence env now st.presence).2) true
          (some { presence := st.presenceVersion + 1, health := st.healthVersion })
          st.seq).2) = ([] : List (Bool × Option Payload × Option ErrorShape)) from
        resTriplesTo_broadcast conn rid _ _ _ _ _ _ _]
      simp [resTriplesTo]
    · intro c hc hs
      apply List.mem_cons_of_mem
      apply List.mem_append_left
      exact broadcast_mem_frame _ _ _ _ _ _ _ c hc hs

theorem system_event_spec_witness :
    (runStep envW stW (Step.message 1 sysEvReqW orcW 0 bufW)).1.presenceVersion =
      stW.presenceVersion + 1 :=
  ((system_event_spec envW stW 1 ("e1") (ParamsVal.sysEventText (some "note"))
    orcW 0 bufW).2 (by decide)).2.1

/-- C5 counterexample: on an accepted system-event the code broadcasts the
presence event (index 1 of the effect list) before sending the res
(index 2, the last effect) on the originating connection, where the claim
requires the res first. -/
theorem system_event_res_after_broadcast_counterexample :
    ((runStep envW stW (Step.message 1 sysEvReqW orcW 0 bufW)).2.findIdx
      (isPresenceEventTo 1) = 1) ∧
    ((runStep envW stW (Step.message 1 sysEvReqW orcW 0 bufW)).2.findIdx
      (isResTo 1 ("e1")) = 2) ∧
    ((runStep envW stW (Step.message 1 sysEvReqW orcW 0 bufW)).2.length = 3) := by
  exact ⟨by decide, by decide, by decide⟩

/-- C5 amended: on an accepted system-event the presence broadcast to the
originating connection is emitted before (not after) the res for that
request: the effect list ends with the res, and the presence event frame to
the originating connection (sent whenever it is not a slow consumer) lies
strictly before it. -/
theorem system_event_broadcast_precedes_res :
    ∀ (env : PresenceEnv) (st : ServerState) (conn : Nat) (rid : String)
      (pv : ParamsVal) (orc : Oracle) (now : Int) (buffered : Nat → Nat),
    strTrim (extractText pv) ≠ "" →
    conn ∈ connIds st →
    ¬ buffered conn > MAX_BUFFERED_BYTES →
    ∃ l, (runStep env st (Step.message conn
        (Inbound.reqIn { id := rid, method := "system-event", params := pv })
        orc now buffered)).2 =
        l ++ [Effect.frameTo conn (OutFrame.res rid true (some Payload.okTrue) none)] ∧
      Effect.frameTo conn (OutFrame.event ("presence")
        (EventPayload.presenceNow (listSystemPresence env now st.presence).2)
        (st.seq + 1)
        (some { presence := st.presenceVersion + 1, health := st.healthVersion })) ∈ l := by
  intro env st conn rid pv orc now buffered h hc hs
  have hb : (strTrim (extractText pv) == "") = false := by simpa using h
  simp only [runStep, handleMessage, hb, Bool.false_eq_true, if_false]
  refine ⟨Effect.enqueueEvent (strTrim (extractText pv)) ::
    (broadcast st.clients buffered ("presence")
      (EventPayload.presenceNow (listSystemPresence env now st.presence).2) true
      (some { presence := st.presenceVersion + 1, health := st.healthVersion })
      st.seq).2, by simp, ?_⟩
  exact List.mem_cons_of_mem _ (broadcast_mem_frame _ _ _ _ _ _ _ conn hc hs)

theorem system_event_broadcast_precedes_res_witness :
    ∃ l, (runStep envW stW (Step.message 1 sysEvReqW orcW 0 bufW)).2 =
        l ++ [Effect.frameTo 1 (OutFrame.res ("e1") true (some Payload.okTrue) none)] ∧
      Effect.frameTo 1 (OutFrame.event ("presence")
        (EventPayload.presenceNow (listSystemPresence envW 0 stW.presence).2)
        (stW.seq + 1)
        (some { presence := stW.presenceVersion + 1, health := stW.healthVersion })) ∈ l :=
  system_event_broadcast_precedes_res envW stW 1 ("e1")
    (ParamsVal.sysEventText (some "note")) orcW 0 bufW (by decide) (by decide) (by decide)

/-- C3 counterexample: while connection 1 is over the 1.5 MiB high-water
mark, an accepted system-event broadcasts its presence event with
`dropIfSlow: true`: the slow connection is silently skipped — no presence
frame and no `1008 "slow consumer"` close — contradicting the claim that
presence is non-droppable. -/
theorem presence_slow_consumer_skipped_counterexample :
    bufSlowW 1 > MAX_BUFFERED_BYTES ∧
    (runStep envW stW (Step.message 1 sysEvReqW orcW 0 bufSlowW)).2 =
      [Effect.enqueueEvent ("note"),
       Effect.frameTo 1 (OutFrame.res ("e1") true (some Payload.okTrue) none)] := by
  exact ⟨by decide, by decide⟩

theorem handleMessage_no_slow_close :
    ∀ (env : PresenceEnv) (st : ServerState) (conn : Nat) (inb : Inbound)
      (orc : Oracle) (now : Int) (buffered : Nat → Nat) (x : Effect),
    x ∈ (handleMessage env st conn inb orc now buffered).2 → isSlowClose x = false := by
  intro env st conn inb orc now buffered x hx
  cases inb with
  | malformed => simp [handleMessage] at hx
  | notReq i d =>
    simp [handleMessage] at hx
    subst hx
    rfl
  | reqIn r =>
    simp only [handleMessage] at hx
    split at hx
    · simp at hx; subst hx; rfl
    · simp at hx; subst hx; rfl
    · simp at hx; subst hx; rfl
    · split at hx
      · simp at hx; subst hx; rfl
      · simp only [List.cons_append, List.mem_cons, List.mem_append,
          List.mem_singleton] at hx
        rcases hx with hx | hx | hx | hx
        · subst hx; rfl
        · obtain ⟨c, hc⟩ := broadcast_droppable_no_close _ _ _ _ _ _ _ hx
          subst hc; rfl
        · subst hx; rfl
        · exact absurd hx (List.not_mem_nil x)
    · simp at hx; subst hx; rfl
    · split at hx
      · simp at hx; subst hx; rfl
      · split at hx
        · simp at hx; subst hx; rfl
        · split at hx
          · simp at hx
            rcases hx with hx | hx <;> subst hx <;> rfl
          · simp at hx
            rcases hx with hx | hx <;> subst hx <;> rfl
    · split at hx
      · simp at hx; subst hx; rfl
      · split at hx
        · simp at hx; subst hx; rfl
        · split at hx
          · simp at hx
            rcases hx with hx | hx | hx <;> subst hx <;> rfl
          · simp at hx
            rcases hx with hx | hx | hx <;> subst hx <;> rfl
    · simp at hx; subst hx; rfl

theorem broadcast_mem_close (clients : List (Nat × Option String))
    (buffered : Nat → Nat) (name : String) (payload : EventPayload)
    (sv : Option StateVersion) (seq0 : Nat) (c : Nat)
    (hc : c ∈ clients.map (fun p => p.1))
    (hs : buffered c > MAX_BUFFERED_BYTES) :
    Effect.closeConn c 1008 ("slow consumer") ∈
      (broadcast clients buffered name payload false sv seq0).2 := by
  obtain ⟨p, hp, hpc⟩ := List.mem_map.mp hc
  simp only [broadcast]
  apply List.mem_filterMap.mpr
  refine ⟨p, hp, ?_⟩
  rw [hpc]
  have hd : decide (buffered c > MAX_BUFFERED_BYTES) = true := by
    simpa using hs
  rw [hd]
  simp

/-- C3 amended: both presence broadcast sites (the system-event handler and
the socket-close handler) pass `dropIfSlow: true`, so a connection over the
1.5 MiB high-water mark silently skips that presence event and no connection
is ever closed `1008 "slow consumer"` while handling an inbound message or a
disconnect; only non-droppable broadcasts — here the agent bus pass-through —
close slow consumers with `1008 "slow consumer"`. -/
theorem presence_droppable_agent_closes_slow :
    (∀ (env : PresenceEnv) (st : ServerState) (conn : Nat) (inb : Inbound)
       (orc : Oracle) (now : Int) (buffered : Nat → Nat) (x : Effect),
      x ∈ (runStep env st (Step.message conn inb orc now buffered)).2 →
      isSlowClose x = false) ∧
    (∀ (env : PresenceEnv) (st : ServerState) (conn : Nat) (now : Int)
       (buffered : Nat → Nat) (x : Effect),
      x ∈ (runStep env st (Step.disconnect conn now buffered)).2 →
      isSlowClose x = false) ∧
    (∀ (env : PresenceEnv) (st : ServerState) (e : AgentEvent)
       (buffered : Nat → Nat) (c : Nat),
      c ∈ connIds st → buffered c > MAX_BUFFERED_BYTES →
      Effect.closeConn c 1008 ("slow consumer") ∈
        (runStep env st (Step.busEvent e buffered)).2) := by
  refine ⟨?_, ?_, ?_⟩
  · intro env st conn inb orc now buffered x hx
    exact handleMessage_no_slow_close env st conn inb orc now buffered x hx
  · intro env st conn now buffered x hx
    simp only [runStep] at hx
    rcases hfind : st.clients.find? (fun c => c.1 == conn) with _ | c
    · rw [hfind] at hx
      simp at hx
    · rw [hfind] at hx
      simp only [List.mem_append, List.mem_singleton] at hx
      rcases hx with hx | hx
      · obtain ⟨c2, hc2⟩ := broadcast_droppable_no_close _ _ _ _ _ _ _ hx
        subst hc2; rfl
      · subst hx; rfl
  · intro env st e buffered c hc hs
    simp only [runStep]
    exact broadcast_mem_close _ _ _ _ _ _ c hc hs

theorem presence_droppable_agent_closes_slow_witness :
    Effect.closeConn 1 1008 ("slow consumer") ∈
      (runStep envW stW (Step.busEvent
        { runId := "r", stream := "s", busSeq := 0, ts := 0, dataTag := 0 }
        bufSlowW)).2 :=
  presence_droppable_agent_closes_slow.2.2 envW stW
    { runId := "r", stream := "s", busSeq := 0, ts := 0, dataTag := 0 }
    bufSlowW 1 (by decide) (by decide)

theorem eventSeqsTo_broadcast_not_mem (c : Nat)
    (clients : List (Nat × Option String)) (buffered : Nat → Nat)
    (name : String) (payload : EventPayload) (d : Bool)
    (sv : Option StateVersion) (seq0 : Nat)
    (h : c ∉ clients.map (fun p => p.1)) :
    eventSeqsTo c (broadcast clients buffered name payload d sv seq0).2 = [] := by
  apply List.filterMap_eq_nil_iff.mpr
  intro x hx
  simp only [broadcast] at hx
  obtain ⟨a, ha, hfa⟩ := List.mem_filterMap.mp hx
  have hac : (a.1 == c) = false := by
    have hne : a.1 ≠ c := fun he => h (he ▸ List.mem_map_of_mem _ ha)
    simpa using hne
  split at hfa
  · exact absurd hfa (by simp)
  · split at hfa
    · rw [Option.some_inj] at hfa
      rw [← hfa]
    · rw [Option.some_inj] at hfa
      rw [← hfa]
      simp [hac]

theorem eventSeqsTo_broadcast_cases (c : Nat)
    (clients : List (Nat × Option String)) (buffered : Nat → Nat)
    (name : String) (payload : EventPayload) (d : Bool)
    (sv : Option StateVersion) (seq0 : Nat)
    (h : (clients.map (fun p => p.1)).Nodup) :
    eventSeqsTo c (broadcast clients buffered name payload d sv seq0).2 = [] ∨
    eventSeqsTo c (broadcast clients buffered name payload d sv seq0).2 = [seq0 + 1] := by
  induction clients with
  | nil => exact Or.inl rfl
  | cons a tl ih =>
    have hns : a.1 ∉ tl.map (fun p => p.1) := by
      simp only [List.map_cons, List.nodup_cons] at h
      exact h.1
    have htl : (tl.map (fun p => p.1)).Nodup := by
      simp only [List.map_cons, List.nodup_cons] at h
      exact h.2
    have hrest := ih htl
    simp only [broadcast] at hrest ⊢
    rw [List.filterMap_cons]
    split
    · exact hrest
    · rename_i x heq
      split at heq
      · exact absurd heq (by simp)
      split at heq
      · rw [Option.some_inj] at heq
        rw [← heq]
        simp only [eventSeqsTo, List.filterMap_cons]
        exact hrest
      · rw [Option.some_inj] at heq
        rw [← heq]
        by_cases hc : a.1 = c
        · have hnm : c ∉ tl.map (fun p => p.1) := hc ▸ hns
          have hz := eventSeqsTo_broadcast_not_mem c tl buffered name payload d sv seq0 hnm
          simp only [broadcast] at hz
          simp only [eventSeqsTo, List.filterMap_cons] at hz ⊢
          have hcb : (a.1 == c) = true := by simpa using hc
          rw [hcb]
          simp only [if_true]
          rw [hz]
          exact Or.inr rfl
        · have hcb : (a.1 == c) = false := by simpa using hc
          simp only [eventSeqsTo, List.filterMap_cons] at hrest ⊢
          rw [hcb]
          simp only [Bool.false_eq_true, if_false]
          exact hrest

theorem handleMessage_invariants (env : PresenceEnv) (st : ServerState)
    (conn : Nat) (inb : Inbound) (orc : Oracle) (now : Int)
    (buffered : Nat → Nat)
    (hnd : (st.clients.map (fun p => p.1)).Nodup) :
    (handleMessage env st conn inb orc now buffered).1.clients = st.clients ∧
    st.seq ≤ (handleMessage env st conn inb orc now buffered).1.seq ∧
    (∀ c, eventSeqsTo c (handleMessage env st conn inb orc now buffered).2 = [] ∨
      (eventSeqsTo c (handleMessage env st conn inb orc now buffered).2 = [st.seq + 1] ∧
       (handleMessage env st conn inb orc now buffered).1.seq = st.seq + 1)) := by
  cases inb with
  | malformed => exact ⟨rfl, Nat.le_refl _, fun c => Or.inl rfl⟩
  | notReq i d => exact ⟨rfl, Nat.le_refl _, fun c => Or.inl rfl⟩
  | reqIn r =>
    simp only [handleMessage]
    split
    · exact ⟨rfl, Nat.le_refl _, fun c => Or.inl rfl⟩
    · exact ⟨rfl, Nat.le_refl _, fun c => Or.inl rfl⟩
    · exact ⟨rfl, Nat.le_refl _, fun c => Or.inl rfl⟩
    · split
      · exact ⟨rfl, Nat.le_refl _, fun c => Or.inl rfl⟩
      · refine ⟨rfl, Nat.le_succ _, fun c => ?_⟩
        have hb := eventSeqsTo_broadcast_cases c st.clients buffered ("presence")
          (EventPayload.presenceNow (listSystemPresence env now st.presence).2) true
          (some { presence := st.presenceVersion + 1, health := st.healthVersion })
          st.seq hnd
        simp only [eventSeqsTo, List.filterMap_cons, List.filterMap_append] at hb ⊢
        rcases hb with hb | hb
        · exact Or.inl (by rw [hb]; rfl)
        · exact Or.inr ⟨by rw [hb]; rfl, rfl⟩
    · exact ⟨rfl, Nat.le_refl _, fun c => Or.inl rfl⟩
    · split
      · exact ⟨rfl, Nat.le_refl _, fun c => Or.inl rfl⟩
      · split
        · exact ⟨rfl, Nat.le_refl _, fun c => Or.inl rfl⟩
        · split
          · exact ⟨rfl, Nat.le_refl _, fun c => Or.inl rfl⟩
          · exact ⟨rfl, Nat.le_refl _, fun c => Or.inl rfl⟩
    · split
      · exact ⟨rfl, Nat.le_refl _, fun c => Or.inl rfl⟩
      · split
        · exact ⟨rfl, Nat.le_refl _, fun c => Or.inl rfl⟩
        · split
          · refine ⟨rfl, Nat.le_succ _, fun c => ?_⟩
            by_cases hc : conn == c
            · exact Or.inr ⟨by simp only [eventSeqsTo, List.filterMap_cons, hc]; rfl, rfl⟩
            · rw [Bool.not_eq_true] at hc
              exact Or.inl (by simp only [eventSeqsTo, List.filterMap_cons, hc]; rfl)
          · refine ⟨rfl, Nat.le_succ _, fun c => ?_⟩
            by_cases hc : conn == c
            · exact Or.inr ⟨by simp only [eventSeqsTo, List.filterMap_cons, hc]; rfl, rfl⟩
            · rw [Bool.not_eq_true] at hc
              exact Or.inl (by simp only [eventSeqsTo, List.filterMap_cons, hc]; rfl)
    · exact ⟨rfl, Nat.le_refl _, fun c => Or.inl rfl⟩

theorem eventSeqsTo_closes (c : Nat) (l : List (Nat × Option String))
    (code : Nat) (reason : String) :
    eventSeqsTo c (l.map (fun p => Effect.closeConn p.1 code reason)) = [] := by
  apply List.filterMap_eq_nil_iff.mpr
  intro x hx
  obtain ⟨p, _, hp⟩ := List.mem_map.mp hx
  rw [← hp]

theorem runStep_invariants (env : PresenceEnv) (st : ServerState) (s : Step)
    (hnd : (connIds st).Nodup)
    (hwf : (match s with
      | Step.connect c _ _ _ _ => ! (connIds st).contains c
      | _ => true) = true) :
    (connIds (runStep env st s).1).Nodup ∧
    st.seq ≤ (runStep env st s).1.seq ∧
    (∀ c, eventSeqsTo c (runStep env st s).2 = [] ∨
      (eventSeqsTo c (runStep env st s).2 = [st.seq + 1] ∧
       (runStep env st s).1.seq = st.seq + 1)) := by
  cases s with
  | connect conn instanceId mode now health =>
    refine ⟨?_, Nat.le_refl _, fun c => Or.inl rfl⟩
    have hmem : conn ∉ connIds st := by
      simp only at hwf
      rw [Bool.not_eq_eq_eq_not, Bool.not_true] at hwf
      intro hc
      have : (connIds st).contains conn = true := by
        exact List.elem_eq_true_of_mem hc
      rw [hwf] at this
      cases this
    show ((st.clients ++ [(conn, instanceId)]).map (fun p => p.1)).Nodup
    rw [List.map_append]
    rw [List.nodup_append]
    exact ⟨hnd, List.nodup_singleton _, by
      intro a ha hb
      simp only [List.map_cons, List.map_nil, List.mem_singleton] at hb
      exact hmem (hb ▸ ha)⟩
  | message conn inb orc now buffered =>
    obtain ⟨hcl, hseq, hev⟩ :=
      handleMessage_invariants env st conn inb orc now buffered hnd
    refine ⟨?_, hseq, hev⟩
    show ((handleMessage env st conn inb orc now buffered).1.clients.map
      (fun p => p.1)).Nodup
    rw [hcl]
    exact hnd
  | disconnect conn now buffered =>
    simp only [runStep]
    rcases hfind : st.clients.find? (fun c => c.1 == conn) with _ | c0
    · rw [hfind]
      exact ⟨hnd, Nat.le_refl _, fun c => Or.inl rfl⟩
    · rw [hfind]
      refine ⟨?_, Nat.le_succ _, fun c => ?_⟩
      · show ((st.clients.filter (fun d => ! (d.1 == conn))).map
          (fun p => p.1)).Nodup
        exact List.Nodup.sublist
          (List.Sublist.map _ (List.filter_sublist st.clients)) hnd
      · have hb := eventSeqsTo_broadcast_cases c st.clients buffered ("presence")
          (EventPayload.presenceNow (listSystemPresence env now
            (upsertPresence (presenceKeyOf conn c0.2) disconnectPatch now
              st.presence)).2) true
          (some { presence := st.presenceVersion + 1, health := st.healthVersion })
          st.seq hnd
        simp only [eventSeqsTo, List.filterMap_append] at hb ⊢
        rcases hb with hb | hb
        · exact Or.inl (by rw [hb]; rfl)
        · exact Or.inr ⟨by rw [hb]; rfl, rfl⟩
  | busEvent e buffered =>
    refine ⟨hnd, Nat.le_succ _, fun c => ?_⟩
    have hb := eventSeqsTo_broadcast_cases c st.clients buffered ("agent")
      (EventPayload.agentBus e) false none st.seq hnd
    rcases hb with hb | hb
    · exact Or.inl hb
    · exact Or.inr ⟨hb, rfl⟩
  | tickStep now buffered =>
    refine ⟨hnd, Nat.le_succ _, fun c => ?_⟩
    have hb := eventSeqsTo_broadcast_cases c st.clients buffered ("tick")
      (EventPayload.tickAt now) true none st.seq hnd
    rcases hb with hb | hb
    · exact Or.inl hb
    · exact Or.inr ⟨hb, rfl⟩
  | sweep now => exact ⟨hnd, Nat.le_refl _, fun c => Or.inl rfl⟩
  | shutdownStep buffered =>
    refine ⟨List.nodup_nil, Nat.le_succ _, fun c => ?_⟩
    have hb := eventSeqsTo_broadcast_cases c st.clients buffered ("shutdown")
      (EventPayload.shutdownNote ("gateway stopping") none) false none st.seq hnd
    have hcl := eventSeqsTo_closes c st.clients 1012 ("service restart")
    simp only [runStep, eventSeqsTo, List.filterMap_append] at hb hcl ⊢
    rcases hb with hb | hb
    · exact Or.inl (by rw [hb, hcl]; rfl)
    · exact Or.inr ⟨by rw [hb, hcl]; rfl, rfl⟩

theorem runTrace_invariants (env : PresenceEnv) :
    ∀ (steps : List Step) (st : ServerState),
    (connIds st).Nodup → wfTrace env st steps = true →
    (connIds (runTrace env st steps).1).Nodup ∧
    st.seq ≤ (runTrace env st steps).1.seq ∧
    (∀ c, List.Chain' (fun a b => a < b) (eventSeqsTo c (runTrace env st steps).2) ∧
      (∀ x ∈ eventSeqsTo c (runTrace env st steps).2,
        st.seq < x ∧ x ≤ (runTrace env st steps).1.seq)) := by
  intro steps
  induction steps with
  | nil =>
    intro st hnd _
    exact ⟨hnd, Nat.le_refl _, fun c => ⟨List.chain'_nil,
      by intro x hx; simp [runTrace, eventSeqsTo] at hx⟩⟩
  | cons s rest ih =>
    intro st hnd hwf
    simp only [wfTrace, Bool.and_eq_true] at hwf
    obtain ⟨hcond, hwfrest⟩ := hwf
    obtain ⟨hnd1, hseq1, hev1⟩ := runStep_invariants env st s hnd hcond
    obtain ⟨hnd2, hseq2, hch⟩ := ih (runStep env st s).1 hnd1 hwfrest
    simp only [runTrace]
    refine ⟨hnd2, Nat.le_trans hseq1 hseq2, fun c => ?_⟩
    rw [show eventSeqsTo c ((runStep env st s).2 ++
        (runTrace env (runStep env st s).1 rest).2) =
      eventSeqsTo c (runStep env st s).2 ++
        eventSeqsTo c (runTrace env (runStep env st s).1 rest).2 from
      List.filterMap_append _ _ _]
    obtain ⟨hch2, hbd2⟩ := hch c
    rcases hev1 c with h1 | ⟨h1, hseqs⟩
    · rw [h1, List.nil_append]
      refine ⟨hch2, fun x hx => ?_⟩
      obtain ⟨ha, hb⟩ := hbd2 x hx
      exact ⟨Nat.lt_of_le_of_lt hseq1 ha, hb⟩
    · rw [h1, List.singleton_append]
      constructor
      · apply List.chain'_cons'.mpr
        refine ⟨fun b hb => ?_, hch2⟩
        have hbm := List.mem_of_mem_head? hb
        have := (hbd2 b hbm).1
        rw [hseqs] at this
        exact this
      · intro x hx
        rcases List.mem_cons.mp hx with hx | hx
        · subst hx
          exact ⟨Nat.lt_succ_self _, hseqs ▸ hseq2⟩
        · obtain ⟨ha, hb⟩ := hbd2 x hx
          exact ⟨Nat.lt_of_le_of_lt hseq1 ha, hb⟩

/-- Two idle READY connections. -/
def stTwoW : ServerState :=
  { clients := [(1, none), (2, none)], dedupe := [], presence := []
    seq := 0, presenceVersion := 1, healthVersion := 1 }

/-- An agent request arriving on connection 2. -/
def agentReqW : Inbound :=
  Inbound.reqIn
    { id := "ag1", method := "agent"
      params := ParamsVal.agentShaped
        { message := "hi", toDest := none, sessionId := none, thinking := none
          deliver := none, timeout := none, idempotencyKey := "KA" } }

/-- An agent bus event. -/
def busEW : AgentEvent :=
  { runId := "r", stream := "s", busSeq := 0, ts := 0, dataTag := 0 }

/-- Bus broadcast, then an uncached agent request on connection 2, then
another bus broadcast: no socket drops any frame anywhere. -/
def traceC2 : List Step :=
  [Step.busEvent busEW bufW, Step.message 2 agentReqW orcW 0 bufW,
   Step.busEvent busEW bufW]

/-- C2 counterexample: connection 1 receives event frames with seq 1 and
then seq 3 — a gap — although no socket dropped a frame: the agent ack event
(seq 2) is written only to connection 2.  This refutes both halves of the
claim (consecutive frames per connection advance by exactly 1; gaps only
from dropped frames). -/
theorem per_connection_seq_gap_counterexample :
    eventSeqsTo 1 (runTrace envW stTwoW traceC2).2 = [1, 3] ∧
    eventSeqsTo 2 (runTrace envW stTwoW traceC2).2 = [1, 2, 3] ∧
    ¬ List.Chain' (fun a b => b = a + 1) (eventSeqsTo 1 (runTrace envW stTwoW traceC2).2) := by
  refine ⟨by decide, by decide, ?_⟩
  intro h
  rw [show eventSeqsTo 1 (runTrace envW stTwoW traceC2).2 = [1, 3] from by decide] at h
  rw [List.chain'_cons] at h
  exact absurd h.1 (by decide)

/-- C2 amended: per connection the seq values of the event frames the server
sends are strictly increasing, but not necessarily by exactly 1, and gaps
arise without any dropped frame (agent ack events are written only to the
requesting socket, and droppable events are skipped for slow consumers).
Proved for every trace whose connect steps use fresh connection ids, from
any starting state with distinct connection ids. -/
theorem per_connection_seqs_strictly_increasing :
    ∀ (env : PresenceEnv) (st : ServerState) (steps : List Step) (conn : Nat),
    (connIds st).Nodup → wfTrace env st steps = true →
    List.Chain' (fun a b => a < b) (eventSeqsTo conn (runTrace env st steps).2) := by
  intro env st steps conn hnd hwf
  exact ((runTrace_invariants env steps st hnd hwf).2.2 conn).1

theorem per_connection_seqs_strictly_increasing_witness :
    List.Chain' (fun a b => a < b) (eventSeqsTo 1 (runTrace envW stTwoW traceC2).2) :=
  per_connection_seqs_strictly_increasing envW stTwoW traceC2 1 (by decide) (by decide)

theorem dedupeCleanup_preserves (now : Int) (m : List (String × DedupeEntry))
    (k : String) (e : DedupeEntry) (h : mapGet m k = some e)
    (ht : now - e.ts ≤ DEDUPE_TTL_MS) (hlen : m.length ≤ DEDUPE_MAX) :
    mapGet (dedupeCleanup now m) k = some e := by
  have hf : (! decide (now - e.ts > DEDUPE_TTL_MS)) = true := by
    simp only [Bool.not_eq_eq_eq_not, Bool.not_true, decide_eq_false_iff_not, not_lt]
    exact ht
  have h1 : mapGet (m.filter (fun q => ! decide (now - q.2.ts > DEDUPE_TTL_MS))) k = some e :=
    mapGet_filter_snd (fun v => ! decide (now - v.ts > DEDUPE_TTL_MS)) m k e h hf
  have hlen1 : (m.filter (fun q => ! decide (now - q.2.ts > DEDUPE_TTL_MS))).length ≤ DEDUPE_MAX :=
    Nat.le_trans (List.length_filter_le _ _) hlen
  simp only [dedupeCleanup]
  rw [if_neg (Nat.not_lt.mpr hlen1)]
  exact h1

theorem dedupe_preserved_step (env : PresenceEnv) (st : ServerState) (s : Step)
    (k : String) (e : DedupeEntry) (h : mapGet st.dedupe k = some e)
    (hswe : ∀ now, s = Step.sweep now →
      now - e.ts ≤ DEDUPE_TTL_MS ∧ st.dedupe.length ≤ DEDUPE_MAX) :
    mapGet (runStep env st s).1.dedupe k = some e := by
  cases s with
  | connect conn instanceId mode now health => exact h
  | disconnect conn now buffered =>
    simp only [runStep]
    rcases hfind : st.clients.find? (fun c => c.1 == conn) with _ | c0
    · rw [hfind]; exact h
    · rw [hfind]; exact h
  | busEvent e2 buffered => exact h
  | tickStep now buffered => exact h
  | shutdownStep buffered => exact h
  | sweep now =>
    obtain ⟨ht, hlen⟩ := hswe now rfl
    exact dedupeCleanup_preserves now st.dedupe k e h ht hlen
  | message conn inb orc now buffered =>
    cases inb with
    | malformed => exact h
    | notReq i d => exact h
    | reqIn r =>
      simp only [runStep, handleMessage]
      split
      · exact h
      · exact h
      · exact h
      · split
        · exact h
        · exact h
      · exact h
      · split
        · exact h
        · rename_i p hp
          split
          · exact h
          · rename_i hm
            have hk : (k == "send:" ++ p.idempotencyKey) = false := by
              apply beq_eq_false_iff_ne.mpr
              intro hkk
              rw [hkk, hm] at h
              cases h
            split
            · show mapGet (mapSet st.dedupe ("send:" ++ p.idempotencyKey) _) k = some e
              rw [mapGet_mapSet_ne st.dedupe ("send:" ++ p.idempotencyKey) k _ hk]
              exact h
            · show mapGet (mapSet st.dedupe ("send:" ++ p.idempotencyKey) _) k = some e
              rw [mapGet_mapSet_ne st.dedupe ("send:" ++ p.idempotencyKey) k _ hk]
              exact h
      · split
        · exact h
        · rename_i p hp
          split
          · exact h
          · rename_i hm
            have hk : (k == "agent:" ++ p.idempotencyKey) = false := by
              apply beq_eq_false_iff_ne.mpr
              intro hkk
              rw [hkk, hm] at h
              cases h
            split
            · show mapGet (mapSet st.dedupe ("agent:" ++ p.idempotencyKey) _) k = some e
              rw [mapGet_mapSet_ne st.dedupe ("agent:" ++ p.idempotencyKey) k _ hk]
              exact h
            · show mapGet (mapSet st.dedupe ("agent:" ++ p.idempotencyKey) _) k = some e
              rw [mapGet_mapSet_ne st.dedupe ("agent:" ++ p.idempotencyKey) k _ hk]
              exact h
      · exact h

theorem dedupe_preserved_trace (env : PresenceEnv) (k : String) (e : DedupeEntry) :
    ∀ (steps : List Step) (st : ServerState),
    mapGet st.dedupe k = some e → safeFor env e.ts st steps = true →
    mapGet (runTrace env st steps).1.dedupe k = some e := by
  intro steps
  induction steps with
  | nil => intro st h _; exact h
  | cons s rest ih =>
    intro st h hsafe
    simp only [safeFor, Bool.and_eq_true] at hsafe
    obtain ⟨hcond, hrest⟩ := hsafe
    have hstep : mapGet (runStep env st s).1.dedupe k = some e := by
      apply dedupe_preserved_step env st s k e h
      intro now hnow
      subst hnow
      simp only [decide_eq_true_eq, Bool.and_eq_true] at hcond
      exact hcond
    simp only [runTrace]
    exact ih (runStep env st s).1 hstep hrest

theorem mutating_cached_hit (env : PresenceEnv) (st : ServerState) (conn : Nat)
    (inb : Inbound) (orc : Oracle) (now : Int) (buffered : Nat → Nat)
    (rid k : String) (e : DedupeEntry)
    (h : mutatingReqKey inb = some (rid, k))
    (hc : mapGet st.dedupe k = some e) :
    handleMessage env st conn inb orc now buffered =
      (st, [Effect.frameTo conn (OutFrame.res rid e.ok e.payload e.error)]) := by
  cases inb with
  | malformed => cases h
  | notReq i d => cases h
  | reqIn r =>
    cases r with
    | mk id mth pr =>
      simp only [mutatingReqKey] at h
      split at h
      · rw [Option.some_inj, Prod.mk.injEq] at h
        obtain ⟨h1, h2⟩ := h
        subst h1
        subst h2
        simp [handleMessage, validateSendParams, hc]
      · rw [Option.some_inj, Prod.mk.injEq] at h
        obtain ⟨h1, h2⟩ := h
        subst h1
        subst h2
        simp [handleMessage, validateAgentParams, hc]
      · cases h

theorem mutating_first_run (env : PresenceEnv) (st : ServerState) (conn : Nat)
    (inb : Inbound) (orc : Oracle) (now : Int) (buffered : Nat → Nat)
    (rid k : String)
    (h : mutatingReqKey inb = some (rid, k))
    (hm : mapGet st.dedupe k = none) :
    ∃ ok pay err,
      resTriplesTo conn rid (handleMessage env st conn inb orc now buffered).2 =
        [(ok, pay, err)] ∧
      mapGet (handleMessage env st conn inb orc now buffered).1.dedupe k =
        some { ts := now, ok := ok, payload := pay, error := err } := by
  cases inb with
  | malformed => cases h
  | notReq i d => cases h
  | reqIn r =>
    cases r with
    | mk id mth pr =>
      simp only [mutatingReqKey] at h
      split at h
      · rw [Option.some_inj, Prod.mk.injEq] at h
        obtain ⟨h1, h2⟩ := h
        subst h1
        subst h2
        rename_i p
        simp only [handleMessage, validateSendParams, hm]
        cases horc : orc.sendResult with
        | success messageId toJid =>
          refine ⟨true, some (Payload.sendDone p.idempotencyKey messageId
            (toJid.getD (strTrim p.toDest ++ "@s.whatsapp.net"))), none, ?_, ?_⟩
          · simp [resTriplesTo]
          · exact mapGet_mapSet_self _ _ _
        | failure err =>
          refine ⟨false, none, some (errorShape UNAVAILABLE err), ?_, ?_⟩
          · simp [resTriplesTo]
          · exact mapGet_mapSet_self _ _ _
      · rw [Option.some_inj, Prod.mk.injEq] at h
        obtain ⟨h1, h2⟩ := h
        subst h1
        subst h2
        rename_i p
        simp only [handleMessage, validateAgentParams, hm]
        cases horc : orc.agentResult with
        | success =>
          refine ⟨true, some (Payload.agentDone
            (jsOrOptStr p.sessionId orc.freshUUID) ("ok") ("completed")), none, ?_, ?_⟩
          · simp [resTriplesTo]
          · exact mapGet_mapSet_self _ _ _
        | failure err =>
          refine ⟨false, some (Payload.agentDone
            (jsOrOptStr p.sessionId orc.freshUUID) ("error") err),
            some (errorShape UNAVAILABLE err), ?_, ?_⟩
          · simp [resTriplesTo]
          · exact mapGet_mapSet_self _ _ _
      · cases h

/-- C1: for a pair of mutating requests (send or agent) with the same dedupe
key, on any two connections: if the key is uncached when the first request is
processed, the first run produces exactly one res triple and caches it, and
any later request with the same key — after any intervening steps during
which no sweep runs past the dedupe TTL of the first completion and the
cache stays within its cap — produces exactly one effect: the res frame
carrying the identical `(ok, payload, error)` triple.  No port invocation,
ack event or other effect occurs on the replay. -/
theorem mutating_request_dedupe_replay :
    ∀ (env : PresenceEnv) (st0 : ServerState) (conn1 conn2 : Nat)
      (inb1 inb2 : Inbound) (orc1 orc2 : Oracle) (now1 now2 : Int)
      (buf1 buf2 : Nat → Nat) (mid : List Step) (rid1 rid2 k : String),
    mutatingReqKey inb1 = some (rid1, k) →
    mutatingReqKey inb2 = some (rid2, k) →
    mapGet st0.dedupe k = none →
    safeFor env now1 (runStep env st0 (Step.message conn1 inb1 orc1 now1 buf1)).1 mid = true →
    ∃ ok pay err,
      resTriplesTo conn1 rid1
        (runStep env st0 (Step.message conn1 inb1 orc1 now1 buf1)).2 = [(ok, pay, err)] ∧
      (runStep env
        (runTrace env (runStep env st0 (Step.message conn1 inb1 orc1 now1 buf1)).1 mid).1
        (Step.message conn2 inb2 orc2 now2 buf2)).2 =
        [Effect.frameTo conn2 (OutFrame.res rid2 ok pay err)] := by
  intro env st0 conn1 conn2 inb1 inb2 orc1 orc2 now1 now2 buf1 buf2 mid rid1 rid2 k
  intro h1 h2 hmiss hsafe
  obtain ⟨ok, pay, err, hres, hcache⟩ :=
    mutating_first_run env st0 conn1 inb1 orc1 now1 buf1 rid1 k h1 hmiss
  refine ⟨ok, pay, err, hres, ?_⟩
  have hpres := dedupe_preserved_trace env k
    { ts := now1, ok := ok, payload := pay, error := err } mid
    (runStep env st0 (Step.message conn1 inb1 orc1 now1 buf1)).1 hcache hsafe
  have hch := mutating_cached_hit env
    (runTrace env (runStep env st0 (Step.message conn1 inb1 orc1 now1 buf1)).1 mid).1
    conn2 inb2 orc2 now2 buf2 rid2 k
    { ts := now1, ok := ok, payload := pay, error := err } h2 hpres
  exact congrArg Prod.snd hch

/-- First send request: connection 1, id a1, key KS. -/
def sendReq1W : Inbound :=
  Inbound.reqIn
    { id := "a1", method := "send"
      params := ParamsVal.sendShaped
        { toDest := "+15550000000", message := "hi", mediaUrl := none
          provider := none, idempotencyKey := "KS" } }

/-- Retry of the same send: different connection, different id, same key. -/
def sendReq2W : Inbound :=
  Inbound.reqIn
    { id := "b1", method := "send"
      params := ParamsVal.sendShaped
        { toDest := "+15550000000", message := "hi again", mediaUrl := none
          provider := none, idempotencyKey := "KS" } }

/-- Intervening steps between the two sends: a dedupe sweep within the TTL
and a tick. -/
def midW : List Step := [Step.sweep 1000, Step.tickStep 7 bufW]

theorem mutating_request_dedupe_replay_witness :
    ∃ ok pay err,
      resTriplesTo 1 ("a1")
        (runStep envW stTwoW (Step.message 1 sendReq1W orcW 0 bufW)).2 = [(ok, pay, err)] ∧
      (runStep envW
        (runTrace envW (runStep envW stTwoW (Step.message 1 sendReq1W orcW 0 bufW)).1 midW).1
        (Step.message 2 sendReq2W orcW 2000 bufW)).2 =
        [Effect.frameTo 2 (OutFrame.res ("b1") ok pay err)] :=
  mutating_request_dedupe_replay envW stTwoW 1 2 sendReq1W sendReq2W orcW orcW 0 2000
    bufW bufW midW ("a1") ("b1") ("send:KS") (by decide) (by decide) (by decide) (by decide)

/-- A cached agent outcome under key `agent:K`. -/
def entryC10W : DedupeEntry :=
  { ts := 0, ok := true
    payload := some (Payload.agentDone ("r1") ("ok") ("completed"))
    error := none }

/-- State whose dedupe cache already holds `agent:K`. -/
def stC10W : ServerState :=
  { clients := [(1, none)], dedupe := [("agent:K", entryC10W)], presence := []
    seq := 5, presenceVersion := 1, healthVersion := 1 }

/-- The agent params of the duplicate request. -/
def agentPW : AgentParams :=
  { message := "hi", toDest := none, sessionId := none, thinking := none
    deliver := none, timeout := none, idempotencyKey := "K" }

theorem agent_cached_replay_no_ack_no_invoke_witness :
    runStep envW stC10W (Step.message 1
      (Inbound.reqIn
        { id := "ag2"
          method := "agent"
          params := ParamsVal.agentShaped agentPW })
      orcW 9 bufW) =
      (stC10W, [Effect.frameTo 1 (OutFrame.res ("ag2") entryC10W.ok
        entryC10W.payload entryC10W.error)]) :=
  agent_cached_replay_no_ack_no_invoke envW stC10W 1 ("ag2") agentPW orcW 9 bufW
    entryC10W (by decide)
